import Mathlib

/-!
# MusicMigration-API: verification of the migration core

Shallow embedding of the Go repository `jpp0ca/MusicMigration-API`:
the domain data model, the provider registry
(`internal/adapters`, the `ProviderRegistry` implementation),
the migration orchestrator (`internal/app/migration_service.go`) and the two
match-confidence scorers
(`internal/adapters/spotify/spotify.go` and
`internal/adapters/youtube/youtube.go`).

Modelling conventions:
* Go `float64` scores are embedded as exact rationals `ℚ`; every constant in
  the scorers is a short decimal literal, and the verified claims are
  qualitative (exact short-circuit value, clamping, count invariants), so the
  rational semantics coincides with the intended arithmetic.
* Go strings are embedded as Lean `String`; `strings.ToLower`,
  `strings.EqualFold`, `strings.Contains` and `strings.Fields` are embedded
  as character-level functions below (ASCII-faithful).
* Effectful provider calls are embedded as explicit function fields returning
  `Except`; the orchestrator additionally threads an explicit record of how
  many destination-side calls it performed, which is the standard explicit
  state-passing embedding of the adapter invocations.
* Goroutine nondeterminism in the worker pool is embedded as an arbitrary
  completion order (`order : List Nat`): the Go channels guarantee every work
  item is dequeued by exactly one worker and deposits exactly one indexed
  result, so the only scheduling freedom visible in the collected output is
  the order in which indexed results arrive on `resultCh`.
-/

/-! ## Domain data model (the `domain` package, `internal/domain`) -/

/-- `domain.Track`: name, artist, album, optional ISRC, optional
provider-specific external identifier.  Go zero value has all fields `""`. -/
structure Track where
  Name : String := ""
  Artist : String := ""
  Album : String := ""
  ISRC : String := ""
  ExternalID : String := ""
deriving DecidableEq

instance : Inhabited Track := ⟨{}⟩

/-- `domain.TrackStatusMatched`: the Go `TrackStatus` is a string type,
embedded as `String`; its zero value is `""`, which is what the pre-sized
result slice starts from. -/
def TrackStatusMatched : String := "matched"

/-- `domain.TrackStatusNotFound`. -/
def TrackStatusNotFound : String := "not_found"

/-- `domain.TrackStatusError`. -/
def TrackStatusError : String := "error"

/-- `domain.TrackResult`.  The Go zero value (as produced by
`make([]domain.TrackResult, n)`) has empty status and error strings, no
matched track and score `0`. -/
structure TrackResult where
  SourceTrack : Track := default
  MatchedTrack : Option Track := none
  Status : String := ""
  ConfidenceScore : ℚ := 0
  Error : String := ""
deriving DecidableEq

instance : Inhabited TrackResult := ⟨{}⟩

/-- `domain.MigrationRequest`. -/
structure MigrationRequest where
  SourceProvider : String
  SourceToken : String
  DestProvider : String
  DestToken : String
  PlaylistID : String
deriving DecidableEq

/-- `domain.MigrationResult`. -/
structure MigrationResult where
  SourcePlaylist : String
  DestPlaylistID : String
  TotalTracks : Nat
  MatchedTracks : Nat
  FailedTracks : Nat
  TrackResults : List TrackResult
deriving DecidableEq

/-! ## String helpers (embeddings of the `strings` stdlib calls used) -/

/-- `strings.Contains` on character lists: `hasSub s sub` is `true` iff
`sub` occurs as a contiguous run inside `s` (the empty list occurs in
everything). -/
def hasSub : List Char → List Char → Bool
  | [], sub => sub.isEmpty
  | s@(_ :: t), sub => sub.isPrefixOf s || hasSub t sub

/-- `strings.Contains(s, sub)`. -/
def strContains (s sub : String) : Bool :=
  hasSub s.data sub.data

/-- `strings.ToLower(s)`, embedded character by character. -/
def lowerStr (s : String) : String :=
  ⟨s.data.map Char.toLower⟩

/-- `strings.EqualFold(a, b)`: case-insensitive equality, embedded as
equality of lowercasings. -/
def eqFold (a b : String) : Bool :=
  lowerStr a == lowerStr b

/-- `strings.Fields(s)`: split around runs of whitespace, dropping empty
pieces. -/
def fields (s : String) : List String :=
  ((s.data.splitOnP Char.isWhitespace).filter (fun w => ¬ w.isEmpty)).map (fun w => ⟨w⟩)

/-- The Go clamp at the end of both scorers:
`if score > 1.0 { score = 1.0 }`. -/
def clamp01 (x : ℚ) : ℚ :=
  if x > 1 then 1 else x

/-! ## The two confidence scorers -/

namespace Spotify

/-- `calculateConfidence` from `internal/adapters/spotify/spotify.go`
(lines 353–385): ISRC short-circuit, then weighted name/artist/album
signals, clamped to at most `1`. -/
def calculateConfidence (source matched : Track) : ℚ :=
  if source.ISRC ≠ "" && matched.ISRC ≠ "" && eqFold source.ISRC matched.ISRC then
    1
  else
    let nameScore : ℚ :=
      if eqFold source.Name matched.Name then 0.5
      else if strContains (lowerStr matched.Name) (lowerStr source.Name) then 0.3
      else 0
    let artistScore : ℚ :=
      if eqFold source.Artist matched.Artist then 0.35
      else if strContains (lowerStr matched.Artist) (lowerStr source.Artist) then 0.2
      else 0
    let albumScore : ℚ :=
      if source.Album ≠ "" && eqFold source.Album matched.Album then 0.15
      else 0
    clamp01 (nameScore + artistScore + albumScore)

end Spotify

namespace Youtube

/-- `calculateConfidence` from `internal/adapters/youtube/youtube.go`
(lines 356–396): title containment or word-overlap fraction, artist
substring bonus, exact-title bonus, clamped to at most `1`. -/
def calculateConfidence (source matched : Track) : ℚ :=
  let sourceName := lowerStr source.Name
  let matchedTitle := lowerStr matched.Name
  let nameScore : ℚ :=
    if strContains matchedTitle sourceName then 0.5
    else
      let sourceWords := fields sourceName
      let matchCount :=
        (sourceWords.filter (fun w => w.length > 2 && strContains matchedTitle w)).length
      if sourceWords.length > 0 then
        0.5 * (matchCount : ℚ) / (sourceWords.length : ℚ)
      else 0
  let sourceArtist := lowerStr source.Artist
  let matchedArtist := lowerStr matched.Artist
  let artistScore : ℚ :=
    if strContains matchedArtist sourceArtist || strContains matchedTitle sourceArtist then 0.4
    else 0
  let exactBonus : ℚ :=
    if sourceName == matchedTitle then 0.1 else 0
  clamp01 (nameScore + artistScore + exactBonus)

end Youtube

/-! ## Search replies and the provider capability

`ports.MusicProvider` exposes six operations; the ones exercised by the
migration orchestrator and the registry are embedded as function fields.
`SearchTrack`'s Go result `(*domain.Track, float64, error)` becomes a
`SearchReply`. -/

/-- Result of one `SearchTrack` call: optional candidate, score, optional
error message. -/
structure SearchReply where
  track : Option Track
  score : ℚ
  err : Option String

/-- The provider capability (`ports.MusicProvider`), restricted to the
operations the verified components invoke.  Effectful Go methods become
explicit functions returning `Except`. -/
structure ProviderM where
  name : String
  getPlaylistTracks : String → String → Except String (List Track)
  searchTrack : String → Track → SearchReply
  createPlaylist : String → String → String → Except String String
  addTracksToPlaylist : String → String → List String → Except String Unit

/-! ## Provider registry (`internal/adapters`, `ProviderRegistry`)

The Go registry is a `map[string]ports.MusicProvider` guarded by an
`RWMutex`; lock discipline has no observable effect on the lookup results,
so the embedding is the map itself, as an association list in which
`Register` prepends (the most recent registration wins on lookup, exactly
the Go map-overwrite semantics). -/

/-- The registry state: name-keyed entries, most recent first. -/
abbrev Registry := List (String × ProviderM)

/-- `NewProviderRegistry()`. -/
def NewProviderRegistry : Registry := []

/-- `Register`: stores the provider keyed by its own reported name;
last write wins. -/
def Registry.register (r : Registry) (p : ProviderM) : Registry :=
  (p.name, p) :: r

/-- `Get`: exact (byte-for-byte) map lookup; absent names produce
`"unknown provider: <name>"`. -/
def Registry.get (r : Registry) (name : String) : Except String ProviderM :=
  match List.lookup name r with
  | some p => Except.ok p
  | none => Except.error ("unknown provider: " ++ name)

/-- A registry populated by registering the given providers in order,
starting from `NewProviderRegistry`. -/
def Registry.ofList (ps : List ProviderM) : Registry :=
  ps.foldl Registry.register NewProviderRegistry

/-! ## The migration service (`internal/app/migration_service.go`) -/

/-- `app.Service`: registry plus configured worker count. -/
structure Service where
  registry : Registry
  workers : Nat

/-- `NewService`: clamps the worker count to at least 1. -/
def NewService (registry : Registry) (workers : Nat) : Service :=
  { registry := registry, workers := if workers < 1 then 1 else workers }

/-- The body of the worker loop in `searchTracksParallel` for a single
dequeued `(index, track)` item: if cancellation was observed before the
search, record an error result; otherwise call `SearchTrack` and build the
`TrackResult` (search error wins over a candidate; no candidate and no
error is `not_found`). -/
def workerProcessItem (search : Track → SearchReply) (cancelled : Bool)
    (idx : Nat) (track : Track) : Nat × TrackResult :=
  if cancelled then
    (idx, { SourceTrack := track, Status := TrackStatusError, Error := "context cancelled" })
  else
    let r := search track
    match r.err with
    | some e =>
      (idx, { SourceTrack := track, Status := TrackStatusError, Error := e })
    | none =>
      match r.track with
      | none => (idx, { SourceTrack := track, Status := TrackStatusNotFound })
      | some m =>
        (idx, { SourceTrack := track, Status := TrackStatusMatched,
                MatchedTrack := some m, ConfidenceScore := r.score })

/-- `searchTracksParallel`: every index is enqueued exactly once, each item
is processed by exactly one worker, and the collector writes each indexed
result into a pre-sized slice (`make([]domain.TrackResult, len(tracks))`,
then `results[ir.index] = ir.result`).

The parameters beyond the code's own are the embedding of its effects and
nondeterminism: `canc i` tells whether the worker observed context
cancellation before searching item `i`, and `order` is the order in which
indexed results arrive on the results channel — for a real execution it is
a permutation of `0, …, len(tracks)-1`, whatever the worker count. -/
def searchTracksParallel (search : Track → SearchReply) (canc : Nat → Bool)
    (tracks : List Track) (order : List Nat) : List TrackResult :=
  let arrivals := order.map
    (fun i => workerProcessItem search (canc i) i (tracks.getD i default))
  arrivals.foldl (fun res p => res.set p.1 p.2)
    (List.replicate tracks.length default)

/-- How many destination-provider calls an execution of `MigratePlaylist`
performed, per operation.  This is the explicit-state embedding of the
adapter invocations (the Go code performs them as side effects). -/
structure DestCalls where
  searchCalls : Nat
  createCalls : Nat
  addCalls : Nat
deriving DecidableEq

/-- No destination-side call performed. -/
def noDestCalls : DestCalls := ⟨0, 0, 0⟩

/-- `MigratePlaylist` from `internal/app/migration_service.go` (lines
40–112), with the destination-call log threaded explicitly.  `canc` and
`order` parameterise the worker-pool nondeterminism exactly as in
`searchTracksParallel`. -/
def MigratePlaylist (s : Service) (canc : Nat → Bool) (order : List Nat)
    (req : MigrationRequest) : Except String MigrationResult × DestCalls :=
  match s.registry.get req.SourceProvider with
  | Except.error e => (Except.error ("source provider error: " ++ e), noDestCalls)
  | Except.ok source =>
  match s.registry.get req.DestProvider with
  | Except.error e => (Except.error ("destination provider error: " ++ e), noDestCalls)
  | Except.ok dest =>
  match source.getPlaylistTracks req.SourceToken req.PlaylistID with
  | Except.error e => (Except.error ("failed to fetch source tracks: " ++ e), noDestCalls)
  | Except.ok tracks =>
  if tracks.length = 0 then
    (Except.error "source playlist is empty", noDestCalls)
  else
    let results := searchTracksParallel (dest.searchTrack req.DestToken) canc tracks order
    let isHit : TrackResult → Bool :=
      fun r => r.Status == TrackStatusMatched && r.MatchedTrack.isSome
    let matchedIDs := results.filterMap (fun r =>
      match r.MatchedTrack with
      | some m => if r.Status == TrackStatusMatched then some m.ExternalID else none
      | none => none)
    let matched := (results.filter isHit).length
    let failed := (results.filter (fun r => !(isHit r))).length
    let searchLog : DestCalls := ⟨(order.filter (fun i => !(canc i))).length, 0, 0⟩
    let playlistName := "Migrated from " ++ req.SourceProvider
    let desc := "Migrated " ++ toString matched ++ "/" ++ toString tracks.length ++ " tracks"
    match dest.createPlaylist req.DestToken playlistName desc with
    | Except.error e =>
      (Except.error ("failed to create destination playlist: " ++ e),
       { searchLog with createCalls := 1 })
    | Except.ok destPlaylistID =>
      if matchedIDs.length > 0 then
        match dest.addTracksToPlaylist req.DestToken destPlaylistID matchedIDs with
        | Except.error e =>
          (Except.error ("failed to add tracks to destination playlist: " ++ e),
           { searchLog with createCalls := 1, addCalls := 1 })
        | Except.ok _ =>
          (Except.ok
            { SourcePlaylist := req.PlaylistID, DestPlaylistID := destPlaylistID,
              TotalTracks := tracks.length, MatchedTracks := matched,
              FailedTracks := failed, TrackResults := results },
           { searchLog with createCalls := 1, addCalls := 1 })
      else
        (Except.ok
          { SourcePlaylist := req.PlaylistID, DestPlaylistID := destPlaylistID,
            TotalTracks := tracks.length, MatchedTracks := matched,
            FailedTracks := failed, TrackResults := results },
         { searchLog with createCalls := 1 })

/-! ## Spotify `AddTracksToPlaylist` batching (`spotify.go`, lines 256–281) -/

namespace Spotify

/-- The consecutive slices `trackIDs[i:end]` taken by the Go loop
`for i := 0; i < len(trackIDs); i += maxBatch` with `maxBatch = 100`. -/
def batchChunks : List String → List (List String)
  | [] => []
  | x :: xs => ((x :: xs).take 100) :: batchChunks ((x :: xs).drop 100)
termination_by l => l.length
decreasing_by simp only [List.length_drop, List.length_cons]; omega

/-- The request bodies sent, one per chunk and in chunk order: each ID is
wrapped as a `spotify:track:` URI. -/
def addTracksRequests (trackIDs : List String) : List (List String) :=
  (batchChunks trackIDs).map (fun chunk => chunk.map (fun id => "spotify:track:" ++ id))

end Spotify

/-! ## Collector lemmas

The collector of `searchTracksParallel` folds indexed writes over a
pre-sized list.  The two facts below are the index-addressed-arena
argument: the fold preserves the size, and once every position it touches
carries the value dictated by its own index, the completion order stops
mattering. -/

/-- Folding indexed writes never changes the length of the output slice. -/
theorem foldl_set_length (l : List (Nat × TrackResult)) (acc : List TrackResult) :
    (l.foldl (fun res p => res.set p.1 p.2) acc).length = acc.length := by
  induction l generalizing acc with
  | nil => rfl
  | cons p t ih => rw [List.foldl_cons, ih, List.length_set]

/-- If every arriving pair `(j, v)` satisfies `v = f j`, then after the
fold, position `i` holds `f i` whenever some pair for `i` arrived, and is
untouched otherwise — independent of arrival order. -/
theorem foldl_set_getD (f : Nat → TrackResult) :
    ∀ (l : List (Nat × TrackResult)) (acc : List TrackResult),
      (∀ p ∈ l, p.2 = f p.1) → ∀ i, i < acc.length →
      (l.foldl (fun res p => res.set p.1 p.2) acc).getD i default
        = if i ∈ l.map Prod.fst then f i else acc.getD i default := by
  intro l
  induction l with
  | nil => intro acc _ i _; simp
  | cons p t ih =>
    intro acc hval i hi
    rw [List.foldl_cons]
    have hval' : ∀ q ∈ t, q.2 = f q.1 := fun q hq => hval q (List.mem_cons_of_mem p hq)
    have hi' : i < (acc.set p.1 p.2).length := by rwa [List.length_set]
    rw [ih (acc.set p.1 p.2) hval' i hi']
    by_cases hmem : i ∈ t.map Prod.fst
    · rw [if_pos hmem, if_pos (by rw [List.map_cons]; exact List.mem_cons_of_mem _ hmem)]
    · rw [if_neg hmem]
      by_cases hj : p.1 = i
      · rw [if_pos (by rw [List.map_cons, hj]; exact List.mem_cons_self i _)]
        have hv : p.2 = f i := by rw [hval p (List.mem_cons_self p t), hj]
        rw [List.getD_eq_getElem?_getD, hj, List.getElem?_set_self hi, hv]
        rfl
      · rw [if_neg (by
          rw [List.map_cons]
          intro hmm
          rcases List.mem_cons.mp hmm with h | h
          · exact hj h.symm
          · exact hmem h)]
        rw [List.getD_eq_getElem?_getD, List.getD_eq_getElem?_getD,
          List.getElem?_set_ne hj]

/-- The per-item worker body always tags the result with the item's own
index. -/
theorem workerProcessItem_fst (search : Track → SearchReply) (c : Bool)
    (idx : Nat) (track : Track) :
    (workerProcessItem search c idx track).1 = idx := by
  unfold workerProcessItem
  by_cases hc : c
  · simp [hc]
  · simp only [hc, if_false]
    cases (search track).err with
    | some e => rfl
    | none => cases (search track).track with
      | none => rfl
      | some m => rfl

/-- The per-item worker body always echoes the source track. -/
theorem workerProcessItem_sourceTrack (search : Track → SearchReply) (c : Bool)
    (idx : Nat) (track : Track) :
    (workerProcessItem search c idx track).2.SourceTrack = track := by
  unfold workerProcessItem
  by_cases hc : c
  · simp [hc]
  · simp only [hc, if_false]
    cases (search track).err with
    | some e => rfl
    | none => cases (search track).track with
      | none => rfl
      | some m => rfl

/-- `searchTracksParallel` always returns one slot per input track. -/
theorem searchTracksParallel_length (search : Track → SearchReply)
    (canc : Nat → Bool) (tracks : List Track) (order : List Nat) :
    (searchTracksParallel search canc tracks order).length = tracks.length := by
  unfold searchTracksParallel
  rw [foldl_set_length, List.length_replicate]

/-- When the completion order is a permutation of the item indices, slot
`i` of the output is exactly the worker result for item `i`. -/
theorem searchTracksParallel_getD (search : Track → SearchReply)
    (canc : Nat → Bool) (tracks : List Track) (order : List Nat)
    (hperm : order.Perm (List.range tracks.length))
    (i : Nat) (hi : i < tracks.length) :
    (searchTracksParallel search canc tracks order).getD i default
      = (workerProcessItem search (canc i) i (tracks.getD i default)).2 := by
  unfold searchTracksParallel
  have hval : ∀ p ∈ order.map
      (fun j => workerProcessItem search (canc j) j (tracks.getD j default)),
      p.2 = (fun j => (workerProcessItem search (canc j) j (tracks.getD j default)).2) p.1 := by
    intro p hp
    rcases List.mem_map.mp hp with ⟨j, _, rfl⟩
    rw [workerProcessItem_fst]
  have hlen : i < (List.replicate tracks.length (default : TrackResult)).length := by
    rwa [List.length_replicate]
  rw [foldl_set_getD
    (fun j => (workerProcessItem search (canc j) j (tracks.getD j default)).2)
    _ _ hval i hlen]
  have hfst : (order.map
        (fun j => workerProcessItem search (canc j) j (tracks.getD j default))).map Prod.fst
      = order := by
    rw [List.map_map]
    have : (Prod.fst ∘ fun j =>
        workerProcessItem search (canc j) j (tracks.getD j default)) = id := by
      funext j
      exact workerProcessItem_fst search (canc j) j (tracks.getD j default)
    rw [this, List.map_id]
  rw [hfst]
  have hmem : i ∈ order := hperm.mem_iff.mpr (List.mem_range.mpr hi)
  rw [if_pos hmem]

/-! ## Claim C1: order preservation of the worker pool -/

/-- **C1**: for every source track list of length `N ≥ 1` and every worker
count `W` with `1 ≤ W ≤ N`, the slice produced by `searchTracksParallel`
has length `N` and its `i`-th entry's `SourceTrack` equals the `i`-th
input track, for every completion order of the concurrent workers (any
permutation of the item indices; the worker count `W` only influences
which permutation materialises, never the collected output). -/
theorem searchTracksParallel_order_preserving
    (search : Track → SearchReply) (canc : Nat → Bool) (tracks : List Track)
    (W : Nat) (_hN : 1 ≤ tracks.length) (_hW1 : 1 ≤ W) (_hWN : W ≤ tracks.length)
    (order : List Nat) (hperm : order.Perm (List.range tracks.length)) :
    (searchTracksParallel search canc tracks order).length = tracks.length ∧
    ∀ i, i < tracks.length →
      ((searchTracksParallel search canc tracks order).getD i default).SourceTrack
        = tracks.getD i default := by
  refine ⟨searchTracksParallel_length search canc tracks order, fun i hi => ?_⟩
  rw [searchTracksParallel_getD search canc tracks order hperm i hi,
    workerProcessItem_sourceTrack]

/-- Concrete two-track input used by the witnesses. -/
def exTracks : List Track := [⟨"a", "x", "", "", ""⟩, ⟨"b", "y", "", "", ""⟩]

/-- A search function that finds nothing, used by the witnesses. -/
def exSearch : Track → SearchReply := fun _ => ⟨none, 0, none⟩

/-- No cancellation, used by the witnesses. -/
def exCanc : Nat → Bool := fun _ => false

/-- Witness for C1: two tracks, one worker, results completing in reversed
order `[1, 0]` — the output is still positionally aligned. -/
theorem searchTracksParallel_order_preserving_witness :
    (searchTracksParallel exSearch exCanc exTracks [1, 0]).length = exTracks.length ∧
    ((searchTracksParallel exSearch exCanc exTracks [1, 0]).getD 0 default).SourceTrack
      = exTracks.getD 0 default ∧
    ((searchTracksParallel exSearch exCanc exTracks [1, 0]).getD 1 default).SourceTrack
      = exTracks.getD 1 default := by
  have h := searchTracksParallel_order_preserving exSearch exCanc exTracks 1
    (by decide) (by decide) (by decide) [1, 0] (by decide)
  exact ⟨h.1, h.2 0 (by decide), h.2 1 (by decide)⟩

/-! ## Claim C9: the registry performs no name normalisation -/

/-- Looking a name up after registering a batch of providers succeeds
exactly when the batch contains a byte-for-byte matching name (whatever
the registry already held only matters for otherwise-missing names). -/
theorem registry_foldl_lookup_isSome (name : String) :
    ∀ (ps : List ProviderM) (acc : Registry),
      (List.lookup name (ps.foldl Registry.register acc)).isSome
        = (((ps.map ProviderM.name).contains name) || (List.lookup name acc).isSome) := by
  intro ps
  induction ps with
  | nil => intro acc; simp
  | cons p t ih =>
    intro acc
    rw [List.foldl_cons]
    show (List.lookup name (t.foldl Registry.register ((p.name, p) :: acc))).isSome = _
    rw [ih ((p.name, p) :: acc)]
    cases h : name == p.name with
    | true =>
      simp [List.lookup_cons, List.contains, List.elem, h]
    | false =>
      simp [List.lookup_cons, List.contains, List.elem, h]

/-- **C9**: `ProviderRegistry.Get` performs no name normalisation — on a
registry built by registering `ps`, `Get name` succeeds iff some
registered provider reports exactly (case-sensitively) that name, and
otherwise returns the `"unknown provider: <name>"` error carrying the
requested name. -/
theorem registry_get_exact_name (ps : List ProviderM) (name : String) :
    ((∃ p, (Registry.ofList ps).get name = Except.ok p) ↔ (∃ p ∈ ps, p.name = name)) ∧
    ((∀ p ∈ ps, p.name ≠ name) →
      (Registry.ofList ps).get name = Except.error ("unknown provider: " ++ name)) := by
  have hsome : (List.lookup name (Registry.ofList ps)).isSome
      = ((ps.map ProviderM.name).contains name) := by
    have := registry_foldl_lookup_isSome name ps NewProviderRegistry
    simpa [NewProviderRegistry] using this
  have hmem : ((ps.map ProviderM.name).contains name) = true ↔ (∃ p ∈ ps, p.name = name) := by
    rw [List.elem_iff, List.mem_map]
  constructor
  · constructor
    · rintro ⟨p, hget⟩
      rw [Registry.get] at hget
      cases hlook : List.lookup name (Registry.ofList ps) with
      | none => rw [hlook] at hget; exact absurd hget (by simp)
      | some q =>
        have : (List.lookup name (Registry.ofList ps)).isSome = true := by
          rw [hlook]; rfl
        exact hmem.mp (hsome ▸ this)
    · intro hex
      have : (List.lookup name (Registry.ofList ps)).isSome = true := by
        rw [hsome]; exact hmem.mpr hex
      rcases Option.isSome_iff_exists.mp this with ⟨q, hq⟩
      exact ⟨q, by rw [Registry.get, hq]⟩
  · intro hall
    have hnone : (List.lookup name (Registry.ofList ps)) = none := by
      rw [← Option.not_isSome_iff_eq_none, hsome]
      intro hc
      rcases hmem.mp hc with ⟨p, hp, hpn⟩
      exact hall p hp hpn
    rw [Registry.get, hnone]

/-- A provider stub registered under the lowercase name `"spotify"`. -/
def exProvider : ProviderM :=
  { name := "spotify"
    getPlaylistTracks := fun _ _ => Except.ok []
    searchTrack := fun _ _ => ⟨none, 0, none⟩
    createPlaylist := fun _ _ _ => Except.ok ""
    addTracksToPlaylist := fun _ _ _ => Except.ok () }

/-- Witness for C9: with only `"spotify"` registered, `Get "Spotify"`
fails with the error carrying the requested (unnormalised) name. -/
theorem registry_get_exact_name_witness :
    (Registry.ofList [exProvider]).get "Spotify"
      = Except.error ("unknown provider: " ++ "Spotify") := by
  apply (registry_get_exact_name [exProvider] "Spotify").2
  intro p hp
  have : p = exProvider := by simpa using hp
  rw [this]
  decide

/-! ## Claim C2: the count invariant of `MigratePlaylist` -/

/-- Splitting a list by a boolean predicate partitions its length. -/
theorem length_filter_add_length_filter_not {α : Type} (p : α → Bool) (l : List α) :
    (l.filter p).length + (l.filter (fun x => !(p x))).length = l.length := by
  induction l with
  | nil => rfl
  | cons x t ih =>
    by_cases h : p x <;> simp [List.filter_cons, h] <;> omega

/-- **C2**: every successful `MigratePlaylist` call returns a result with
`MatchedTracks + FailedTracks = TotalTracks = len(TrackResults)`, and
`TotalTracks` is the number of tracks fetched from the source playlist. -/
theorem migrate_count_invariant
    (s : Service) (canc : Nat → Bool) (order : List Nat) (req : MigrationRequest)
    (source : ProviderM) (tracks : List Track) (res : MigrationResult)
    (hs : s.registry.get req.SourceProvider = Except.ok source)
    (ht : source.getPlaylistTracks req.SourceToken req.PlaylistID = Except.ok tracks)
    (hok : (MigratePlaylist s canc order req).1 = Except.ok res) :
    res.MatchedTracks + res.FailedTracks = res.TotalTracks ∧
    res.TotalTracks = res.TrackResults.length ∧
    res.TotalTracks = tracks.length := by
  unfold MigratePlaylist at hok
  rw [hs] at hok
  dsimp only at hok
  cases hd : s.registry.get req.DestProvider with
  | error e => rw [hd] at hok; simp at hok
  | ok dest =>
    rw [hd] at hok
    dsimp only at hok
    rw [ht] at hok
    dsimp only at hok
    by_cases hz : tracks.length = 0
    · rw [if_pos hz] at hok; simp at hok
    · rw [if_neg hz] at hok
      split at hok
      · simp at hok
      · split at hok
        · split at hok
          · simp at hok
          · simp only [Except.ok.injEq] at hok
            rw [← hok]
            refine ⟨?_, ?_, rfl⟩
            · dsimp only
              rw [← searchTracksParallel_length (dest.searchTrack req.DestToken) canc tracks order]
              exact length_filter_add_length_filter_not _ _
            · dsimp only
              rw [searchTracksParallel_length]
        · simp only [Except.ok.injEq] at hok
          rw [← hok]
          refine ⟨?_, ?_, rfl⟩
          · dsimp only
            rw [← searchTracksParallel_length (dest.searchTrack req.DestToken) canc tracks order]
            exact length_filter_add_length_filter_not _ _
          · dsimp only
            rw [searchTracksParallel_length]

/-! ## Claims C5 and C6: error containment and the empty-playlist guard -/

/-- A non-cancelled worker observing a search error records an
error-status result carrying the underlying message. -/
theorem workerProcessItem_err (search : Track → SearchReply) (c : Bool)
    (idx : Nat) (track : Track) (e : String)
    (hc : c = false) (he : (search track).err = some e) :
    (workerProcessItem search c idx track).2.Status = TrackStatusError ∧
    (workerProcessItem search c idx track).2.Error = e := by
  subst hc
  simp only [workerProcessItem, Bool.false_eq_true, if_false]
  rw [he]
  exact ⟨rfl, rfl⟩

/-- A non-cancelled worker observing no candidate and no error records a
`not_found` result with an empty error message. -/
theorem workerProcessItem_notFound (search : Track → SearchReply) (c : Bool)
    (idx : Nat) (track : Track)
    (hc : c = false) (he : (search track).err = none)
    (hn : (search track).track = none) :
    (workerProcessItem search c idx track).2.Status = TrackStatusNotFound ∧
    (workerProcessItem search c idx track).2.Error = "" := by
  subst hc
  simp only [workerProcessItem, Bool.false_eq_true, if_false]
  rw [he, hn]
  exact ⟨rfl, rfl⟩

/-- **C5**: per-track search failures never fail the migration.  Whenever
both providers resolve, the source fetch succeeds with a non-empty list,
and the destination's create/add calls succeed, `MigratePlaylist` returns
a `MigrationResult`; and for any non-cancelled index `i`, a search error
yields `Status = error` with the underlying message, while no candidate
and no error yields `Status = not_found` with an empty message. -/
theorem migrate_per_track_failure_containment
    (s : Service) (canc : Nat → Bool) (order : List Nat) (req : MigrationRequest)
    (source dest : ProviderM) (tracks : List Track)
    (hs : s.registry.get req.SourceProvider = Except.ok source)
    (hd : s.registry.get req.DestProvider = Except.ok dest)
    (ht : source.getPlaylistTracks req.SourceToken req.PlaylistID = Except.ok tracks)
    (hne : ¬ tracks.length = 0)
    (hcp : ∀ tok nm ds, (dest.createPlaylist tok nm ds).isOk = true)
    (hat : ∀ tok pid ids, dest.addTracksToPlaylist tok pid ids = Except.ok ())
    (hperm : order.Perm (List.range tracks.length))
    (i : Nat) (hi : i < tracks.length) (hci : canc i = false) :
    ∃ res, (MigratePlaylist s canc order req).1 = Except.ok res ∧
      res.TrackResults.length = tracks.length ∧
      (∀ e, (dest.searchTrack req.DestToken (tracks.getD i default)).err = some e →
        (res.TrackResults.getD i default).Status = TrackStatusError ∧
        (res.TrackResults.getD i default).Error = e) ∧
      ((dest.searchTrack req.DestToken (tracks.getD i default)).err = none →
        (dest.searchTrack req.DestToken (tracks.getD i default)).track = none →
        (res.TrackResults.getD i default).Status = TrackStatusNotFound ∧
        (res.TrackResults.getD i default).Error = "") := by
  have hcp' : ∀ tok nm ds, ∃ pid, dest.createPlaylist tok nm ds = Except.ok pid := by
    intro tok nm ds
    cases hx : dest.createPlaylist tok nm ds with
    | error e =>
      have := hcp tok nm ds
      rw [hx] at this
      exact absurd this (by simp [Except.isOk, Except.toBool])
    | ok pid => exact ⟨pid, rfl⟩
  obtain ⟨pid, hpid⟩ := hcp' req.DestToken ("Migrated from " ++ req.SourceProvider)
    ("Migrated "
      ++ toString ((searchTracksParallel (dest.searchTrack req.DestToken) canc tracks
            order).filter (fun r =>
              r.Status == TrackStatusMatched && r.MatchedTrack.isSome)).length
      ++ "/" ++ toString tracks.length ++ " tracks")
  refine ⟨{ SourcePlaylist := req.PlaylistID, DestPlaylistID := pid,
            TotalTracks := tracks.length,
            MatchedTracks := ((searchTracksParallel (dest.searchTrack req.DestToken) canc
              tracks order).filter (fun r =>
                r.Status == TrackStatusMatched && r.MatchedTrack.isSome)).length,
            FailedTracks := ((searchTracksParallel (dest.searchTrack req.DestToken) canc
              tracks order).filter (fun r =>
                !(r.Status == TrackStatusMatched && r.MatchedTrack.isSome))).length,
            TrackResults := searchTracksParallel (dest.searchTrack req.DestToken) canc
              tracks order }, ?_, ?_, ?_, ?_⟩
  · unfold MigratePlaylist
    rw [hs]
    dsimp only
    rw [hd]
    dsimp only
    rw [ht]
    dsimp only
    rw [if_neg hne]
    rw [hpid]
    dsimp only
    split
    · rw [hat]
    · rfl
  · dsimp only
    rw [searchTracksParallel_length]
  · intro e he
    dsimp only
    rw [searchTracksParallel_getD _ _ _ _ hperm i hi]
    exact workerProcessItem_err _ _ _ _ _ hci he
  · intro he hn
    dsimp only
    rw [searchTracksParallel_getD _ _ _ _ hperm i hi]
    exact workerProcessItem_notFound _ _ _ _ hci he hn

/-- **C6**: a source playlist resolving to zero tracks makes
`MigratePlaylist` fail with the `"source playlist is empty"` error, with
no destination-side call (zero searches, zero playlist creations, zero
bulk adds). -/
theorem migrate_empty_playlist
    (s : Service) (canc : Nat → Bool) (order : List Nat) (req : MigrationRequest)
    (source dest : ProviderM)
    (hs : s.registry.get req.SourceProvider = Except.ok source)
    (hd : s.registry.get req.DestProvider = Except.ok dest)
    (ht : source.getPlaylistTracks req.SourceToken req.PlaylistID = Except.ok []) :
    MigratePlaylist s canc order req
      = (Except.error "source playlist is empty", noDestCalls) := by
  unfold MigratePlaylist
  rw [hs]
  dsimp only
  rw [hd]
  dsimp only
  rw [ht]
  rfl

/-! ## Witness fixtures for the orchestrator claims -/

/-- A destination provider for the witnesses: finds `"a"`, errors on
`"c"` with a quota message, finds nothing else; create and bulk-add
always succeed. -/
def exDestProvider : ProviderM :=
  { name := "dst"
    getPlaylistTracks := fun _ _ => Except.ok []
    searchTrack := fun _ t =>
      if t.Name == "a" then ⟨some ⟨"a", "x", "", "", "vid-a"⟩, 0.9, none⟩
      else if t.Name == "c" then ⟨none, 0, some "search quota exceeded"⟩
      else ⟨none, 0, none⟩
    createPlaylist := fun _ _ _ => Except.ok "pid"
    addTracksToPlaylist := fun _ _ _ => Except.ok () }

/-- A source provider for the witnesses serving `exTracks`. -/
def exSourceProvider : ProviderM :=
  { name := "src"
    getPlaylistTracks := fun _ _ => Except.ok exTracks
    searchTrack := fun _ _ => ⟨none, 0, none⟩
    createPlaylist := fun _ _ _ => Except.ok ""
    addTracksToPlaylist := fun _ _ _ => Except.ok () }

/-- Service over the two witness providers. -/
def exService : Service := NewService (Registry.ofList [exSourceProvider, exDestProvider]) 2

/-- Witness migration request from `"src"` to `"dst"`. -/
def exReq : MigrationRequest := ⟨"src", "t1", "dst", "t2", "pl"⟩

/-- The migration result the witness run produces: one matched track, one
not found. -/
def exResult : MigrationResult :=
  { SourcePlaylist := "pl", DestPlaylistID := "pid",
    TotalTracks := 2, MatchedTracks := 1, FailedTracks := 1,
    TrackResults :=
      [ { SourceTrack := ⟨"a", "x", "", "", ""⟩,
          MatchedTrack := some ⟨"a", "x", "", "", "vid-a"⟩,
          Status := TrackStatusMatched, ConfidenceScore := 0.9, Error := "" },
        { SourceTrack := ⟨"b", "y", "", "", ""⟩, MatchedTrack := none,
          Status := TrackStatusNotFound, ConfidenceScore := 0, Error := "" } ] }

/-- Witness for C2: the count invariant on a concrete two-track run with
results arriving in reversed order. -/
theorem migrate_count_invariant_witness :
    exResult.MatchedTracks + exResult.FailedTracks = exResult.TotalTracks ∧
    exResult.TotalTracks = exResult.TrackResults.length ∧
    exResult.TotalTracks = exTracks.length :=
  migrate_count_invariant exService exCanc [1, 0] exReq exSourceProvider exTracks exResult
    rfl rfl rfl

/-- Source tracks for the C5 witness: the first search will error, the
second will find nothing. -/
def exTracks5 : List Track := [⟨"c", "z", "", "", ""⟩, ⟨"b", "y", "", "", ""⟩]

/-- Source provider serving `exTracks5`. -/
def exSource5 : ProviderM :=
  { name := "src5"
    getPlaylistTracks := fun _ _ => Except.ok exTracks5
    searchTrack := fun _ _ => ⟨none, 0, none⟩
    createPlaylist := fun _ _ _ => Except.ok ""
    addTracksToPlaylist := fun _ _ _ => Except.ok () }

/-- Service for the C5 witness. -/
def exService5 : Service := NewService (Registry.ofList [exSource5, exDestProvider]) 2

/-- Request for the C5 witness. -/
def exReq5 : MigrationRequest := ⟨"src5", "t1", "dst", "t2", "pl5"⟩

/-- Witness for C5: with a destination whose search errors on track 0,
the migration still succeeds and slot 0 carries the error message. -/
theorem migrate_per_track_failure_containment_witness :
    ∃ res, (MigratePlaylist exService5 exCanc [1, 0] exReq5).1 = Except.ok res ∧
      res.TrackResults.length = exTracks5.length ∧
      (∀ e, (exDestProvider.searchTrack exReq5.DestToken
          (exTracks5.getD 0 default)).err = some e →
        (res.TrackResults.getD 0 default).Status = TrackStatusError ∧
        (res.TrackResults.getD 0 default).Error = e) ∧
      ((exDestProvider.searchTrack exReq5.DestToken (exTracks5.getD 0 default)).err = none →
        (exDestProvider.searchTrack exReq5.DestToken (exTracks5.getD 0 default)).track = none →
        (res.TrackResults.getD 0 default).Status = TrackStatusNotFound ∧
        (res.TrackResults.getD 0 default).Error = "") :=
  migrate_per_track_failure_containment exService5 exCanc [1, 0] exReq5
    exSource5 exDestProvider exTracks5 rfl rfl rfl (by decide)
    (fun _ _ _ => rfl) (fun _ _ _ => rfl) (by decide) 0 (by decide) rfl

/-- A source provider whose playlist resolves to zero tracks. -/
def exEmptySource : ProviderM :=
  { name := "esrc"
    getPlaylistTracks := fun _ _ => Except.ok []
    searchTrack := fun _ _ => ⟨none, 0, none⟩
    createPlaylist := fun _ _ _ => Except.ok ""
    addTracksToPlaylist := fun _ _ _ => Except.ok () }

/-- Service for the C6 witness. -/
def exEmptyService : Service := NewService (Registry.ofList [exEmptySource, exDestProvider]) 2

/-- Witness for C6: the empty playlist aborts with the dedicated error
and a zeroed destination-call log. -/
theorem migrate_empty_playlist_witness :
    MigratePlaylist exEmptyService exCanc [] ⟨"esrc", "t1", "dst", "t2", "pl0"⟩
      = (Except.error "source playlist is empty", noDestCalls) :=
  migrate_empty_playlist exEmptyService exCanc [] ⟨"esrc", "t1", "dst", "t2", "pl0"⟩
    exEmptySource exDestProvider rfl rfl rfl

/-! ## Claims C3, C4, C7, C8: the confidence scorers -/

/-- `clamp01` never exceeds `1`. -/
theorem clamp01_le_one (x : ℚ) : clamp01 x ≤ 1 := by
  unfold clamp01
  split_ifs with h
  · exact le_refl 1
  · linarith

/-- `clamp01` preserves nonnegativity. -/
theorem clamp01_nonneg (x : ℚ) (hx : 0 ≤ x) : 0 ≤ clamp01 x := by
  unfold clamp01
  split_ifs with h
  · norm_num
  · exact hx

/-- The empty string occurs in every string. -/
theorem strContains_empty (s : String) : strContains s "" = true := by
  unfold strContains
  cases hs : s.data with
  | nil => rfl
  | cons c t => simp [hasSub, List.isPrefixOf]

/-- **C3 (amended)**: the structured-metadata (Spotify) scorer returns
exactly `1.0` whenever source and candidate both carry a non-empty ISRC
and the two agree case-insensitively, regardless of name/artist/album;
the title-only (YouTube) scorer has no such short circuit (see the
counterexample). -/
theorem spotify_isrc_short_circuit (source matched : Track)
    (h1 : source.ISRC ≠ "") (h2 : matched.ISRC ≠ "")
    (h3 : eqFold source.ISRC matched.ISRC = true) :
    Spotify.calculateConfidence source matched = 1 := by
  unfold Spotify.calculateConfidence
  rw [if_pos]
  simp [h1, h2, h3]

/-- Witness for the amended C3: divergent names, artists and albums, same
ISRC up to case — the Spotify scorer returns exactly `1`. -/
theorem spotify_isrc_short_circuit_witness :
    Spotify.calculateConfidence ⟨"Name A", "Artist A", "Album A", "GBUM71029604", ""⟩
      ⟨"Other", "Smith", "Else", "gbum71029604", "x"⟩ = 1 :=
  spotify_isrc_short_circuit _ _ (by decide) (by decide) (by decide)

/-- Counterexample to C3 as stated: both tracks carry the same non-empty
ISRC, yet the YouTube scorer does not return `1.0` — it never consults
the ISRC fields at all. -/
theorem youtube_isrc_no_short_circuit :
    ("GBUM71029604" : String) ≠ "" ∧
    eqFold "GBUM71029604" "GBUM71029604" = true ∧
    Youtube.calculateConfidence ⟨"aaa", "bbb", "", "GBUM71029604", ""⟩
      ⟨"aaa", "qqq", "", "GBUM71029604", ""⟩ ≠ 1 := by
  refine ⟨by decide, by decide, ?_⟩
  have h : Youtube.calculateConfidence ⟨"aaa", "bbb", "", "GBUM71029604", ""⟩
      ⟨"aaa", "qqq", "", "GBUM71029604", ""⟩ = clamp01 ((0.5 : ℚ) + 0 + 0.1) := by
    simp only [Youtube.calculateConfidence]
    rw [if_pos (show strContains (lowerStr "aaa") (lowerStr "aaa") = true from by decide),
      if_neg (by rw [show strContains (lowerStr "qqq") (lowerStr "bbb") = false from by decide,
        show strContains (lowerStr "aaa") (lowerStr "bbb") = false from by decide]; decide),
      if_pos (show (lowerStr "aaa" == lowerStr "aaa") = true from by decide)]
  rw [h]
  norm_num [clamp01]

/-- **C4**: both scorers return values inside `[0, 1]` for every pair of
tracks. -/
theorem calculateConfidence_clamped (source matched : Track) :
    (0 ≤ Spotify.calculateConfidence source matched ∧
      Spotify.calculateConfidence source matched ≤ 1) ∧
    (0 ≤ Youtube.calculateConfidence source matched ∧
      Youtube.calculateConfidence source matched ≤ 1) := by
  refine ⟨⟨?_, ?_⟩, ⟨?_, ?_⟩⟩
  · simp only [Spotify.calculateConfidence]
    split_ifs <;> norm_num [clamp01]
  · simp only [Spotify.calculateConfidence]
    split_ifs <;> norm_num [clamp01]
  · simp only [Youtube.calculateConfidence]
    apply clamp01_nonneg
    split_ifs <;> positivity
  · simp only [Youtube.calculateConfidence]
    exact clamp01_le_one _

/-- **C7**: when the full-containment check fails (the word-overlap
heuristic is active) and the source name has at least one whitespace
token, the YouTube score is the clamp of: (matched tokens / total tokens)
× 0.5 — where matched tokens are those longer than 2 characters occurring
in the candidate title — plus a flat 0.4 when the source artist occurs in
the candidate channel or title, plus 0.1 when the lowercased names are
exactly equal. -/
theorem youtube_word_overlap_formula (source matched : Track)
    (hnc : strContains (lowerStr matched.Name) (lowerStr source.Name) = false)
    (hw : (fields (lowerStr source.Name)).length ≠ 0) :
    Youtube.calculateConfidence source matched =
      clamp01 (
        (((fields (lowerStr source.Name)).filter
            (fun w => w.length > 2 && strContains (lowerStr matched.Name) w)).length : ℚ)
          / ((fields (lowerStr source.Name)).length : ℚ) * 0.5
        + (if strContains (lowerStr matched.Artist) (lowerStr source.Artist)
              || strContains (lowerStr matched.Name) (lowerStr source.Artist)
            then (0.4 : ℚ) else 0)
        + (if lowerStr source.Name == lowerStr matched.Name then (0.1 : ℚ) else 0)) := by
  simp only [Youtube.calculateConfidence]
  rw [if_neg (by rw [hnc]; decide),
    if_pos (Nat.pos_of_ne_zero hw)]
  congr 1
  ring

/-- Witness for C7: `"hello world xy"` against title `"world only"` — one
of three tokens matches (the two-character `"xy"` is ignored even though
containment is not the issue here, and `"hello"` is absent). -/
theorem youtube_word_overlap_formula_witness :
    Youtube.calculateConfidence ⟨"hello world xy", "abc", "", "", ""⟩
      ⟨"world only", "zz", "", "", ""⟩ =
      clamp01 (
        (((fields (lowerStr "hello world xy")).filter
            (fun w => w.length > 2 && strContains (lowerStr "world only") w)).length : ℚ)
          / ((fields (lowerStr "hello world xy")).length : ℚ) * 0.5
        + (if strContains (lowerStr "zz") (lowerStr "abc")
              || strContains (lowerStr "world only") (lowerStr "abc")
            then (0.4 : ℚ) else 0)
        + (if lowerStr "hello world xy" == lowerStr "world only" then (0.1 : ℚ) else 0)) :=
  youtube_word_overlap_formula ⟨"hello world xy", "abc", "", "", ""⟩
    ⟨"world only", "zz", "", "", ""⟩ (by decide) (by decide)

/-- **C8**: against any candidate, the Spotify scorer applied to a source
with empty name and artist returns at least `0.5`: the empty string is
contained in every string, so the name signal contributes at least `0.3`
and the artist signal at least `0.2`. -/
theorem spotify_empty_source_half (source matched : Track)
    (hn : source.Name = "") (ha : source.Artist = "") :
    (0.5 : ℚ) ≤ Spotify.calculateConfidence source matched := by
  simp only [Spotify.calculateConfidence]
  rw [hn, ha]
  simp only [show lowerStr "" = "" from rfl, strContains_empty]
  split_ifs <;> norm_num [clamp01]

/-- Witness for C8: empty source name and artist against an arbitrary
candidate. -/
theorem spotify_empty_source_half_witness :
    (0.5 : ℚ) ≤ Spotify.calculateConfidence ⟨"", "", "", "", ""⟩
      ⟨"Some Song", "Some Artist", "Some Album", "XYZ", "id9"⟩ :=
  spotify_empty_source_half ⟨"", "", "", "", ""⟩
    ⟨"Some Song", "Some Artist", "Some Album", "XYZ", "id9"⟩ rfl rfl

/-! ## Claim C10: Spotify bulk-add batching -/

/-- Every chunk the batching loop produces is a `take 100`, hence holds at
most 100 IDs (fuel-indexed induction on the list length). -/
theorem batchChunks_sizes : ∀ (n : Nat) (l : List String), l.length ≤ n →
    ∀ c ∈ Spotify.batchChunks l, c.length ≤ 100 := by
  intro n
  induction n with
  | zero =>
    intro l h c hc
    have : l = [] := List.eq_nil_of_length_eq_zero (Nat.le_zero.mp h)
    subst this
    simp [Spotify.batchChunks] at hc
  | succ n ih =>
    intro l h c hc
    match l with
    | [] => simp [Spotify.batchChunks] at hc
    | x :: xs =>
      rw [Spotify.batchChunks] at hc
      rcases List.mem_cons.mp hc with hcx | hcx
      · subst hcx
        rw [List.length_take]
        exact min_le_left _ _
      · refine ih ((x :: xs).drop 100) ?_ c hcx
        simp only [List.length_drop, List.length_cons] at h ⊢
        omega

/-- Concatenating the chunks restores the input (fuel-indexed induction,
using `take n l ++ drop n l = l`). -/
theorem batchChunks_join : ∀ (n : Nat) (l : List String), l.length ≤ n →
    (Spotify.batchChunks l).flatten = l := by
  intro n
  induction n with
  | zero =>
    intro l h
    have : l = [] := List.eq_nil_of_length_eq_zero (Nat.le_zero.mp h)
    subst this
    simp [Spotify.batchChunks]
  | succ n ih =>
    intro l h
    match l with
    | [] => simp [Spotify.batchChunks]
    | x :: xs =>
      rw [Spotify.batchChunks, List.flatten_cons,
        ih ((x :: xs).drop 100) (by simp only [List.length_drop, List.length_cons] at h ⊢; omega)]
      exact List.take_append_drop 100 (x :: xs)

/-- **C10**: `AddTracksToPlaylist` partitions the ID list into consecutive
chunks of at most 100, sends one request per chunk in order, and the
concatenation of the chunks is exactly the input list — so every ID is
sent exactly once, in its original relative position (also at the URI
level of the actual request payloads). -/
theorem spotify_addTracks_chunking (trackIDs : List String) :
    (∀ c ∈ Spotify.batchChunks trackIDs, c.length ≤ 100) ∧
    (Spotify.batchChunks trackIDs).flatten = trackIDs ∧
    (Spotify.addTracksRequests trackIDs).flatten
      = trackIDs.map (fun id => "spotify:track:" ++ id) := by
  refine ⟨batchChunks_sizes trackIDs.length trackIDs (le_refl _),
    batchChunks_join trackIDs.length trackIDs (le_refl _), ?_⟩
  unfold Spotify.addTracksRequests
  rw [← List.map_flatten,
    batchChunks_join trackIDs.length trackIDs (le_refl _)]

/-- Witness for C10: a concrete chunking instance recovered through the
theorem. -/
theorem spotify_addTracks_chunking_witness :
    (Spotify.batchChunks ["id1", "id2", "id3"]).flatten = ["id1", "id2", "id3"] :=
  (spotify_addTracks_chunking ["id1", "id2", "id3"]).2.1
